import Mathlib

/-!
A shallow embedding of `bin/install-from-cache.js` and proofs about it.

The script downloads a prebuilt artifact for the current platform from a
GitHub release (trying brotli then gzip compression), writes it to the path
given by `--artifact`, verifies it with `npm run verify-build` or `npm test`,
and falls back to `npm run rebuild` whenever any step fails.
-/

namespace InstallFromCache

/-! ### Characters and case-insensitive matching

JavaScript regexes with the `i` flag canonicalise ASCII letters; the three
patterns in the script only use ASCII literals, so matching a literal
case-insensitively is comparing the lowercased input character with the
(lowercase) literal character. -/

/-- ASCII lowercasing, as JS regex canonicalisation acts on the script's
ASCII-only literals. -/
def lcChar (c : Char) : Char :=
  if 'A' ≤ c ∧ c ≤ 'Z' then Char.ofNat (c.toNat + 32) else c

/-- Match a literal (given lowercase) against the head of the input,
case-insensitively; return the rest of the input on success. -/
def stripCI : List Char → List Char → Option (List Char)
  | [], s => some s
  | _ :: _, [] => none
  | l :: ls, c :: cs => if lcChar c = l then stripCI ls cs else none

/-- Is `needle` a leading segment of the second list? -/
def leadsWith : List Char → List Char → Bool
  | [], _ => true
  | _ :: _, [] => false
  | a :: as, b :: bs => a = b && leadsWith as bs

/-- `haystack.indexOf(needle) >= 0`, i.e. substring containment. -/
def hasSub (needle : List Char) : List Char → Bool
  | [] => leadsWith needle []
  | c :: rest => leadsWith needle (c :: rest) || hasSub needle rest

/-- JS word character, for the `\b` boundary in the first pattern. -/
def wordChar (c : Char) : Bool :=
  ('a' ≤ c && c ≤ 'z') || ('A' ≤ c && c ≤ 'Z') || ('0' ≤ c && c ≤ '9') || c = '_'

end InstallFromCache

namespace InstallFromCache

/-! ### `parseUrl` / `getRepo`

The script tries three anchored case-insensitive patterns in order and
returns the first match (capture groups 1 and 2 are owner and name):

 1. a full URL with scheme from {http, https, git, git+ssh, git+http,
    git+https}, host written as the pattern `github.com` whose dot is a
    wildcard, then `([^\/]+)\/([^\/\.]+)` ended by a slash, `.git` at a
    word boundary, or the end of the string;
 2. `github:([^\/]+)\/([^#]+)` ended by a hash or the end;
 3. `([^:\/]+)\/([^#]+)` ended by a hash or the end.

The greedy character classes exclude exactly the character the regex needs
next, so backtracking never changes the outcome and each pattern is a
deterministic left-to-right scan. -/

/-- Scheme alternatives of the first pattern, each with the following
literal `://`.  The alternatives are mutually exclusive on every input
(each must be followed by a colon), so the order is immaterial. -/
def schemes : List (List Char) :=
  ["https://".data, "http://".data, "git://".data, "git+ssh://".data,
   "git+https://".data, "git+http://".data]

/-- Strip the first of the literals that leads the input. -/
def firstStrip : List (List Char) → List Char → Option (List Char)
  | [], _ => none
  | l :: ls, s =>
    match stripCI l s with
    | some r => some r
    | none => firstStrip ls s

/-- Match the host part of the first pattern: `github`, one wildcard
character (the unescaped dot in the regex), `com`, then a slash. -/
def matchHost (s : List Char) : Option (List Char) :=
  match stripCI "github".data s with
  | none => none
  | some [] => none
  | some (_ :: r2) =>
    match stripCI "com".data r2 with
    | none => none
    | some ('/' :: r4) => some r4
    | some _ => none

/-- The first pattern:
`^(?:https?|git|git\+ssh|git\+https?):\/\/github.com\/([^\/]+)\/([^\/\.]+)(?:\/|\.git\b|$)/i`. -/
def matchFull (s : List Char) : Option (List Char × List Char) :=
  match firstStrip schemes s with
  | none => none
  | some r =>
    match matchHost r with
    | none => none
    | some r2 =>
      let g1 := r2.takeWhile (fun c => c ≠ '/')
      match r2.dropWhile (fun c => c ≠ '/') with
      | '/' :: r3 =>
        if g1.isEmpty then none else
        let g2 := r3.takeWhile (fun c => c ≠ '/' && c ≠ '.')
        if g2.isEmpty then none else
        match r3.dropWhile (fun c => c ≠ '/' && c ≠ '.') with
        | [] => some (g1, g2)
        | '/' :: _ => some (g1, g2)
        | '.' :: r5 =>
          match stripCI "git".data r5 with
          | none => none
          | some [] => some (g1, g2)
          | some (c :: _) => if wordChar c then none else some (g1, g2)
        | _ => none
      | _ => none

/-- The second pattern: `^github:([^\/]+)\/([^#]+)(?:#|$)/i`. -/
def matchGh (s : List Char) : Option (List Char × List Char) :=
  match stripCI "github:".data s with
  | none => none
  | some r =>
    let g1 := r.takeWhile (fun c => c ≠ '/')
    match r.dropWhile (fun c => c ≠ '/') with
    | '/' :: r2 =>
      if g1.isEmpty then none else
      let g2 := r2.takeWhile (fun c => c ≠ '#')
      if g2.isEmpty then none else some (g1, g2)
    | _ => none

/-- The third pattern: `^([^:\/]+)\/([^#]+)(?:#|$)/i`. -/
def matchBare (s : List Char) : Option (List Char × List Char) :=
  let g1 := s.takeWhile (fun c => c ≠ ':' && c ≠ '/')
  match s.dropWhile (fun c => c ≠ ':' && c ≠ '/') with
  | '/' :: r2 =>
    if g1.isEmpty then none else
    let g2 := r2.takeWhile (fun c => c ≠ '#')
    if g2.isEmpty then none else some (g1, g2)
  | _ => none

/-- `getRepo`: a falsy (empty) url yields null, otherwise the first of the
three patterns that matches wins. -/
def getRepoL (s : List Char) : Option (List Char × List Char) :=
  if s.isEmpty then none else
  match matchFull s with
  | some r => some r
  | none =>
    match matchGh s with
    | some r => some r
    | none => matchBare s

/-- String-level wrapper of `getRepoL`. -/
def getRepo (s : String) : Option (String × String) :=
  (getRepoL s.data).map (fun p => (String.mk p.1, String.mk p.2))

end InstallFromCache

namespace InstallFromCache

/-! ### `getAssetUrlPrefix`

The script reads the repository reference from `npm_package_github`, or from
`npm_package_repository_url` when `npm_package_repository_type` is `git`;
environment variables and CLI parameters are strings whose JS falsiness is
emptiness. -/

/-- The package environment variables the script consumes (populated either
by npm itself or by the script from `package.json`, with `|| ''` defaults,
so an absent value is the empty string). -/
structure EnvVars where
  github : String
  repositoryType : String
  repositoryUrl : String
  version : String
  verifyBuild : String
  test : String
deriving DecidableEq

/-- `process.env.npm_package_github || (npm_package_repository_type === 'git'
&& npm_package_repository_url)`, collapsed to a string whose emptiness is
JS falsiness of that expression. -/
def urlCandidate (e : EnvVars) : String :=
  if e.github ≠ "" then e.github
  else if e.repositoryType = "git" then e.repositoryUrl
  else ""

/-- `mirrorHost || process.env[mirrorEnvVar] || 'https://github.com'`. -/
def resolveHost (hostParam hostEnvVal : String) : String :=
  if hostParam ≠ "" then hostParam
  else if hostEnvVal ≠ "" then hostEnvVal
  else "https://github.com"

/-- `getAssetUrlPrefix`: null when no repository was resolved, otherwise the
template
`{host}/{owner}/{name}/releases/download/{version}/{pfx}{platform}-{arch}-{modules}{sfx}`
(`pfx`/`sfx` are the `--prefix`/`--suffix` CLI parameters). -/
def getAssetUrlPrefix (e : EnvVars) (pfx sfx hostParam hostEnvVal platform arch modules : String) :
    Option String :=
  match getRepo (urlCandidate e) with
  | none => none
  | some (owner, name) =>
    some (resolveHost hostParam hostEnvVal ++ "/" ++ owner ++ "/" ++ name ++
      "/releases/download/" ++ e.version ++ "/" ++ pfx ++ platform ++ "-" ++
      arch ++ "-" ++ modules ++ sfx)

/-! ### `getPlatform` -/

/-- The fields of a `spawnSync` result the script inspects: `status` is the
exit code, or null when the child was killed by a signal or never spawned;
`signal` is the killing signal, if any; `stdout` and `stderr` are the
captured output strings when the child ran, and null when the spawn itself
failed (Node sets `result.stdout = result.output && result.output[1]`, and
`output` is null on a spawn failure). -/
structure SpawnResult where
  status : Option Int
  signal : Option String
  stdout : Option String
  stderr : Option String
deriving DecidableEq

/-- JS truthiness of `result.status` (null and 0 are falsy). -/
def statusTruthy (r : SpawnResult) : Bool :=
  match r.status with
  | some s => s ≠ 0
  | none => false

/-- JS truthiness of `result.signal`. -/
def signalTruthy (r : SpawnResult) : Bool :=
  r.signal.isSome

/-- `'musl'` as a character list, for `indexOf('musl') >= 0` checks. -/
def muslL : List Char := "musl".data

/-- `getPlatform`, as a function of the OS name and the results of the two
probes `getconf GNU_LIBC_VERSION` and `ldd --version`.  The final check is
`(!result.status && result.stdout.toString().indexOf('musl') >= 0) ||
(result.status === 1 && result.stderr.toString().indexOf('musl') >= 0)`,
evaluated with JS short-circuiting; calling `.toString()` on a null
`stdout`/`stderr` (a probe that failed to spawn) throws a TypeError, which
`Except.error` represents — the function has no handler for it. -/
def getPlatform (platform : String) (getconf ldd : SpawnResult) : Except String String :=
  if platform ≠ "linux" then .ok platform
  else if ¬statusTruthy getconf ∧ ¬signalTruthy getconf then .ok platform
  else if signalTruthy ldd then .ok platform
  else
    match (if ¬statusTruthy ldd then
        match ldd.stdout with
        | none => Except.error "TypeError"
        | some out => Except.ok (hasSub muslL out.data)
      else Except.ok false) with
    | .error e => .error e
    | .ok true => .ok (platform ++ "-musl")
    | .ok false =>
      match (if ldd.status = some 1 then
          match ldd.stderr with
          | none => Except.error "TypeError"
          | some err => Except.ok (hasSub muslL err.data)
        else Except.ok false) with
      | .error e => .error e
      | .ok true => .ok (platform ++ "-musl")
      | .ok false => .ok platform

/-! ### `run` and `isVerified` -/

/-- How a child process launched by `exec` can end: a normal exit with a
code, termination by a signal, or an `error` event (it never started). -/
inductive ProcOutcome where
  | exit (code : Nat)
  | signal (s : String)
  | spawnErr (m : String)
deriving DecidableEq

/-- The value `run` rejects with. -/
inductive RunErr where
  | code (c : Nat)
  | sig (s : String)
  | err (m : String)
deriving DecidableEq

/-- `run`: `(signal || code) && reject(signal || code); resolve(0)`, plus
rejection with the error of an `error` event. -/
def runE : ProcOutcome → Except RunErr Unit
  | .exit c => if c = 0 then .ok () else .error (.code c)
  | .signal s => .error (.sig s)
  | .spawnErr m => .error (.err m)

/-- Did `run` resolve (rather than reject)? -/
def runOk (o : ProcOutcome) : Bool :=
  match runE o with
  | .ok _ => true
  | .error _ => false

/-! ### The orchestrator `main`

`main` is modelled as a pure function from a `World` — the configuration and
the outcome of every external interaction the run could make — to the list
of observable events (network requests, artifact writes, commands run) and
the final result. -/

/-- Observable events of a run. -/
inductive Event where
  | net (url : String)
  | wrote (path : String)
  | cmd (c : String)
deriving DecidableEq

/-- The error of a `get` call: a non-200, non-redirect HTTP status, or a
transport failure. -/
inductive GetErr where
  | status (code : Nat) (url : String)
  | transport (m : String)
deriving DecidableEq

/-- How the script learned its package configuration: from npm-provided
environment variables (npm < 7), or by reading the `package.json` named by
`npm_package_json` (npm >= 7), which can fail to read or parse. -/
inductive ConfigSource where
  | npmEnv (e : EnvVars)
  | pkgJsonFail
  | pkgJsonOk (e : EnvVars)
deriving DecidableEq

/-- The effective environment after the configuration step, or `none` when
reading `package.json` failed (`break checks`). -/
def effEnv : ConfigSource → Option EnvVars
  | .npmEnv e => some e
  | .pkgJsonFail => none
  | .pkgJsonOk e => some e

/-- The CLI parameters of the script. -/
structure Params where
  artifact : String
  pfx : String
  sfx : String
  host : String
deriving DecidableEq

/-- Everything external a single run can observe: configuration, platform
facts, and the outcome of each network fetch, decompression, write and
subprocess the run would perform. -/
structure World where
  config : ConfigSource
  params : Params
  hostEnvValue : String
  platform : String
  arch : String
  modules : String
  devFlag : Bool
  devMarker : Bool
  brotliSupported : Bool
  gzipSupported : Bool
  brFetch : Except GetErr (List Nat)
  brDecompress : Option (List Nat)
  brWriteOk : Bool
  gzFetch : Except GetErr (List Nat)
  gzDecompress : Option (List Nat)
  gzWriteOk : Bool
  verifyOutcome : ProcOutcome
  rebuildOutcome : ProcOutcome

/-- `isDev`: the `DEVELOPMENT_SKIP_GETTING_ASSET` variable is truthy or the
`.development` marker file is accessible. -/
def isDev (flag marker : Bool) : Bool :=
  flag || marker

/-- One codec attempt of `main`: when the codec is supported, a `get` of the
codec-specific URL, decompression, and a write to the artifact path, any
failure being squelched.  Returns the events of the attempt and whether
`copied` was set. -/
def tryCodec (supported : Bool) (url : String) (fetch : Except GetErr (List Nat))
    (decomp : Option (List Nat)) (writeOk : Bool) (artifact : String) :
    List Event × Bool :=
  if supported then
    match fetch with
    | .error _ => ([.net url], false)
    | .ok _ =>
      match decomp with
      | none => ([.net url], false)
      | some _ =>
        if writeOk then ([.net url, .wrote artifact], true)
        else ([.net url], false)
  else ([], false)

/-- `isVerified`: run `npm run verify-build` if configured, else `npm test`
if configured, else report failure immediately; a rejected `run` is caught
and reported as failure. -/
def isVerifiedRun (e : EnvVars) (o : ProcOutcome) : List Event × Bool :=
  if e.verifyBuild ≠ "" then ([.cmd "npm run verify-build"], runOk o)
  else if e.test ≠ "" then ([.cmd "npm test"], runOk o)
  else ([], false)

/-- The brotli attempt of `main`. -/
def brTry (w : World) (u : String) : List Event × Bool :=
  tryCodec w.brotliSupported (u ++ ".br") w.brFetch w.brDecompress
    w.brWriteOk w.params.artifact

/-- The gzip attempt of `main`. -/
def gzTry (w : World) (u : String) : List Event × Bool :=
  tryCodec w.gzipSupported (u ++ ".gz") w.gzFetch w.gzDecompress
    w.gzWriteOk w.params.artifact

/-- The codec stage proper: gzip is attempted only when brotli did not set
`copied`. -/
def codecStage (w : World) (u : String) : List Event × Bool :=
  if (brTry w u).2 then ((brTry w u).1, true)
  else ((brTry w u).1 ++ (gzTry w u).1, (gzTry w u).2)

/-- The `checks:` labelled block of `main`: events performed inside the
block, and whether it ended at `return console.log('Done.')` (true) or fell
through / broke out to the fallback build (false). -/
def checksB (w : World) : List Event × Bool :=
  match effEnv w.config with
  | none => ([], false)
  | some env =>
    if w.params.artifact = "" then ([], false)
    else if isDev w.devFlag w.devMarker then ([], false)
    else
      match getAssetUrlPrefix env w.params.pfx w.params.sfx w.params.host
          w.hostEnvValue w.platform w.arch w.modules with
      | none => ([], false)
      | some u =>
        if (codecStage w u).2 then
          ((codecStage w u).1 ++ (isVerifiedRun env w.verifyOutcome).1,
            (isVerifiedRun env w.verifyOutcome).2)
        else ((codecStage w u).1, false)

/-- The result of a whole run. -/
inductive MainResult where
  | done
  | fallbackOk
  | fatal (e : RunErr)
deriving DecidableEq

/-- `main`: run the checks block; unless it returned `Done.`, run the
fallback build `npm run rebuild`, whose rejection propagates out of `main`
uncaught. -/
def mainRun (w : World) : List Event × MainResult :=
  let c := checksB w
  if c.2 then (c.1, .done)
  else
    match runE w.rebuildOutcome with
    | .ok _ => (c.1 ++ [.cmd "npm run rebuild"], .fallbackOk)
    | .error e => (c.1 ++ [.cmd "npm run rebuild"], .fatal e)

/-- The event trace of a run. -/
def mainTrace (w : World) : List Event :=
  (mainRun w).1

/-- The final result of a run. -/
def mainResult (w : World) : MainResult :=
  (mainRun w).2

/-- Is an event the fallback build command? -/
def isRebuild : Event → Bool
  | .cmd c => c = "npm run rebuild"
  | _ => false

/-- How many times the fallback build was invoked in a trace. -/
def rebuildCount (t : List Event) : Nat :=
  (t.filter isRebuild).length

/-- Is an event an artifact write? -/
def isWrite : Event → Bool
  | .wrote _ => true
  | _ => false

/-- How many artifacts were written in a trace. -/
def writeCount (t : List Event) : Nat :=
  (t.filter isWrite).length

/-- The network requests of a trace, in order. -/
def netReqs (t : List Event) : List String :=
  t.filterMap (fun e => match e with | .net u => some u | _ => none)

/-- Did the verification step of this world pass (an artifact having been
written)? -/
def verifiedB (w : World) : Bool :=
  match effEnv w.config with
  | none => false
  | some env => (isVerifiedRun env w.verifyOutcome).2

/-! ### `get`: the fetcher

`get` recurses on redirects with no depth limit, so the model takes fuel;
`none` is divergence (an unbounded redirect chain). -/

/-- The parts of an HTTP response the script inspects; an absent `Location`
header is the empty string (both are falsy in JS). -/
structure HttpResp where
  status : Nat
  location : String
  body : List Nat
deriving DecidableEq

/-- What a URL answers: a response or a transport-level error. -/
inductive FetchOutcome where
  | resp (r : HttpResp)
  | err (m : String)
deriving DecidableEq

/-- A server assigns an outcome to every URL. -/
def Server : Type :=
  String → FetchOutcome

/-- Does `get` follow this response as a redirect? -/
def isRedirect (r : HttpResp) : Bool :=
  300 ≤ r.status && r.status < 400 && r.location ≠ ""

/-- `get`, with fuel: follow 3xx responses that carry a Location header,
fail on any other non-200 status with that status, fail on transport
errors, and resolve the accumulated body on a 200. -/
def get (server : Server) : Nat → String → Option (Except GetErr (List Nat))
  | 0, _ => none
  | fuel + 1, url =>
    match server url with
    | .err m => some (.error (.transport m))
    | .resp r =>
      if isRedirect r then get server fuel r.location
      else if r.status ≠ 200 then some (.error (.status r.status url))
      else some (.ok r.body)

/-- A redirect chain of length `n` from one URL to another under a server. -/
inductive Redir (server : Server) : String → String → Nat → Prop where
  | zero (u : String) : Redir server u u 0
  | succ {u v w : String} {n : Nat} (r : HttpResp) :
      server u = .resp r → isRedirect r = true → r.location = v →
      Redir server v w n → Redir server u w (n + 1)

/-- A happy-path world: a resolvable repository, an artifact path, no dev
mode, a successful brotli download/decompression/write, and a verify-build
script that exits 0. -/
def wOk : World where
  config := .pkgJsonOk ⟨"o/r", "", "", "1.0", "node t.js", ""⟩
  params := ⟨"a.node", "P", "S", ""⟩
  hostEnvValue := ""
  platform := "linux"
  arch := "x64"
  modules := "108"
  devFlag := false
  devMarker := false
  brotliSupported := true
  gzipSupported := true
  brFetch := .ok [1]
  brDecompress := some [2]
  brWriteOk := true
  gzFetch := .ok [3]
  gzDecompress := some [4]
  gzWriteOk := true
  verifyOutcome := .exit 0
  rebuildOutcome := .exit 0


/-- The happy-path world with a failing verification and a rebuild command
killed by a signal. -/
def wBad : World :=
  {wOk with verifyOutcome := .exit 1, rebuildOutcome := .signal "SIGKILL"}


/-- A clean glibc probe result. -/
def gClean : SpawnResult := ⟨some 0, none, some "", some ""⟩


/-- A failed glibc probe result. -/
def gFail : SpawnResult := ⟨some 127, none, some "", some ""⟩


/-- An `ldd --version` result on a musl system: exit code 1 with `musl` in
the stderr text. -/
def lMusl : SpawnResult := ⟨some 1, none, some "", some "musl libc (x86_64)\nVersion 1.2"⟩

/-- An `ldd --version` probe killed by a signal. -/
def lSig : SpawnResult := ⟨none, some "SIGSEGV", some "", some ""⟩

/-- An `ldd --version` probe that failed to spawn (for example ENOENT when
`ldd` is not installed): status and signal are null, and so are the output
fields. -/
def lddSpawnFail : SpawnResult := ⟨none, none, none, none⟩


/-- A concrete server with a redirect chain of depth 3 from `a` to `d`, a
404 at `e`, and a transport failure everywhere else. -/
def servW : Server := fun u =>
  if u = "a" then .resp ⟨301, "b", []⟩
  else if u = "b" then .resp ⟨302, "c", []⟩
  else if u = "c" then .resp ⟨307, "d", []⟩
  else if u = "d" then .resp ⟨200, "", [7, 8]⟩
  else if u = "e" then .resp ⟨404, "", []⟩
  else .err "ECONNREFUSED"

/-! ### Helper lemmas about traces -/

theorem rebuildCount_append (a b : List Event) :
    rebuildCount (a ++ b) = rebuildCount a + rebuildCount b := by
  simp [rebuildCount]

theorem writeCount_append (a b : List Event) :
    writeCount (a ++ b) = writeCount a + writeCount b := by
  simp [writeCount]

theorem netReqs_append (a b : List Event) :
    netReqs (a ++ b) = netReqs a ++ netReqs b := by
  simp [netReqs]

theorem tryCodec_events (sup : Bool) (url : String) (f : Except GetErr (List Nat))
    (d : Option (List Nat)) (wk : Bool) (art : String) :
    rebuildCount (tryCodec sup url f d wk art).1 = 0 ∧
    writeCount (tryCodec sup url f d wk art).1 =
      (if (tryCodec sup url f d wk art).2 then 1 else 0) ∧
    netReqs (tryCodec sup url f d wk art).1 = (if sup then [url] else []) ∧
    ((tryCodec sup url f d wk art).2 = true → sup = true) := by
  cases sup <;> rcases f with m | bs <;> rcases d with _ | ds <;> cases wk <;>
    simp [tryCodec, rebuildCount, writeCount, netReqs, isRebuild, isWrite]

theorem isVerifiedRun_events (e : EnvVars) (o : ProcOutcome) :
    rebuildCount (isVerifiedRun e o).1 = 0 ∧
    writeCount (isVerifiedRun e o).1 = 0 ∧
    netReqs (isVerifiedRun e o).1 = [] := by
  unfold isVerifiedRun
  by_cases h1 : e.verifyBuild ≠ ""
  · rw [if_pos h1]
    exact ⟨rfl, rfl, rfl⟩
  · rw [if_neg h1]
    by_cases h2 : e.test ≠ ""
    · rw [if_pos h2]
      exact ⟨rfl, rfl, rfl⟩
    · rw [if_neg h2]
      exact ⟨rfl, rfl, rfl⟩

theorem codecStage_events (w : World) (u : String) :
    rebuildCount (codecStage w u).1 = 0 ∧
    writeCount (codecStage w u).1 = (if (codecStage w u).2 then 1 else 0) ∧
    List.Sublist (netReqs (codecStage w u).1) [u ++ ".br", u ++ ".gz"] := by
  have hb : rebuildCount (brTry w u).1 = 0 ∧
      writeCount (brTry w u).1 = (if (brTry w u).2 then 1 else 0) ∧
      netReqs (brTry w u).1 = (if w.brotliSupported then [u ++ ".br"] else []) ∧
      ((brTry w u).2 = true → w.brotliSupported = true) :=
    tryCodec_events w.brotliSupported (u ++ ".br") w.brFetch
      w.brDecompress w.brWriteOk w.params.artifact
  have hg : rebuildCount (gzTry w u).1 = 0 ∧
      writeCount (gzTry w u).1 = (if (gzTry w u).2 then 1 else 0) ∧
      netReqs (gzTry w u).1 = (if w.gzipSupported then [u ++ ".gz"] else []) ∧
      ((gzTry w u).2 = true → w.gzipSupported = true) :=
    tryCodec_events w.gzipSupported (u ++ ".gz") w.gzFetch
      w.gzDecompress w.gzWriteOk w.params.artifact
  unfold codecStage
  by_cases hbs : (brTry w u).2 = true
  · rw [if_pos hbs]
    refine ⟨hb.1, ?_, ?_⟩
    · rw [hb.2.1, hbs]
    · rw [hb.2.2.1]
      split <;> simp
  · rw [if_neg hbs]
    simp only [Bool.not_eq_true] at hbs
    refine ⟨?_, ?_, ?_⟩
    · rw [rebuildCount_append, hb.1, hg.1]
    · rw [writeCount_append, hb.2.1, hg.2.1, hbs]
      simp
    · rw [netReqs_append, hb.2.2.1, hg.2.2.1]
      rcases w.brotliSupported <;> rcases w.gzipSupported <;> simp

/-- When the brotli attempt fully succeeds, the codec stage makes exactly
one network request (the `.br` one) and sets `copied`. -/
theorem codecStage_brotli (w : World) (u : String)
    (hsup : w.brotliSupported = true) (bs : List Nat) (hf : w.brFetch = .ok bs)
    (ds : List Nat) (hd : w.brDecompress = some ds) (hw : w.brWriteOk = true) :
    netReqs (codecStage w u).1 = [u ++ ".br"] ∧ (codecStage w u).2 = true := by
  have hbr : brTry w u = ([Event.net (u ++ ".br"), Event.wrote w.params.artifact], true) := by
    unfold brTry tryCodec
    rw [hsup, hf, hd, hw]
    simp
  unfold codecStage
  rw [hbr]
  exact ⟨rfl, rfl⟩

theorem checksB_spec (w : World) :
    rebuildCount (checksB w).1 = 0 ∧
    ((checksB w).2 = true ↔ 0 < writeCount (checksB w).1 ∧ verifiedB w = true) := by
  unfold checksB verifiedB
  rcases hcfg : effEnv w.config with _ | env
  · exact ⟨rfl, by simp [writeCount]⟩
  · dsimp only
    by_cases hart : w.params.artifact = ""
    · rw [if_pos hart]
      exact ⟨rfl, by simp [writeCount]⟩
    · rw [if_neg hart]
      by_cases hdev : isDev w.devFlag w.devMarker = true
      · rw [if_pos hdev]
        exact ⟨rfl, by simp [writeCount]⟩
      · rw [if_neg hdev]
        rcases hu : getAssetUrlPrefix env w.params.pfx w.params.sfx w.params.host
            w.hostEnvValue w.platform w.arch w.modules with _ | u
        · exact ⟨rfl, by simp [writeCount]⟩
        · dsimp only
          have hv := isVerifiedRun_events env w.verifyOutcome
          have hcu := codecStage_events w u
          by_cases hcs : (codecStage w u).2 = true
          · rw [if_pos hcs]
            refine ⟨?_, ?_⟩
            · rw [rebuildCount_append, hcu.1, hv.1]
            · rw [writeCount_append, hv.2.1, hcu.2.1, hcs]
              simp
          · rw [if_neg hcs]
            simp only [Bool.not_eq_true] at hcs
            refine ⟨hcu.1, ?_⟩
            rw [hcu.2.1, hcs]
            simp

theorem mainResult_done (w : World) :
    mainResult w = .done ↔ (checksB w).2 = true := by
  unfold mainResult mainRun
  by_cases h : (checksB w).2 = true
  · rw [if_pos h]
    simp [h]
  · rw [if_neg h]
    simp only [Bool.not_eq_true] at h
    rcases hr : runE w.rebuildOutcome with _ | e <;> simp [h]

theorem mainTrace_eq (w : World) :
    mainTrace w = (checksB w).1 ++
      (if (checksB w).2 then [] else [Event.cmd "npm run rebuild"]) := by
  unfold mainTrace mainRun
  by_cases h : (checksB w).2 = true
  · rw [if_pos h, if_pos h]
    simp
  · rw [if_neg h, if_neg h]
    rcases hr : runE w.rebuildOutcome with _ | e <;> simp [hr]

theorem rebuildCount_mainTrace (w : World) :
    rebuildCount (mainTrace w) = (if (checksB w).2 then 0 else 1) := by
  rw [mainTrace_eq, rebuildCount_append, (checksB_spec w).1]
  by_cases h : (checksB w).2 = true
  · rw [if_pos h, if_pos h]
    rfl
  · rw [if_neg h, if_neg h]
    rfl

theorem writeCount_mainTrace (w : World) :
    writeCount (mainTrace w) = writeCount (checksB w).1 := by
  rw [mainTrace_eq, writeCount_append]
  by_cases h : (checksB w).2 = true
  · rw [if_pos h]
    rfl
  · rw [if_neg h]
    rfl

theorem netReqs_mainTrace (w : World) :
    netReqs (mainTrace w) = netReqs (checksB w).1 := by
  rw [mainTrace_eq, netReqs_append]
  by_cases h : (checksB w).2 = true
  · rw [if_pos h]
    simp [netReqs]
  · rw [if_neg h]
    simp [netReqs]


/-- C1: the fallback build is invoked exactly when no artifact was written
and verified; a written and verified artifact ends the run successfully
with no fallback, and in every other case the fallback build runs exactly
once. -/
theorem c1_fallback_iff_unverified (w : World) :
    (0 < writeCount (mainTrace w) ∧ verifiedB w = true →
      mainResult w = .done ∧ rebuildCount (mainTrace w) = 0) ∧
    (¬(0 < writeCount (mainTrace w) ∧ verifiedB w = true) →
      mainResult w ≠ .done ∧ rebuildCount (mainTrace w) = 1) := by
  have hs := (checksB_spec w).2
  rw [writeCount_mainTrace] at *
  constructor
  · intro h
    have hc : (checksB w).2 = true := hs.mpr h
    rw [rebuildCount_mainTrace, if_pos hc]
    exact ⟨(mainResult_done w).mpr hc, rfl⟩
  · intro h
    have hc : ¬(checksB w).2 = true := fun hh => h (hs.mp hh)
    rw [rebuildCount_mainTrace, if_neg hc]
    refine ⟨fun hd => hc ((mainResult_done w).mp hd), rfl⟩

/-- Witness for C1 at two concrete worlds: the happy path terminates with
`Done.` and no fallback; the same world with a failing verification runs
the fallback exactly once. -/
theorem c1_witness :
    (mainResult wOk = .done ∧ rebuildCount (mainTrace wOk) = 0) ∧
    (mainResult {wOk with verifyOutcome := .exit 1} ≠ .done ∧
      rebuildCount (mainTrace {wOk with verifyOutcome := .exit 1}) = 1) :=
  ⟨(c1_fallback_iff_unverified wOk).1 (by decide),
   (c1_fallback_iff_unverified {wOk with verifyOutcome := .exit 1}).2 (by decide)⟩

/-- When every precondition up to the download stage holds, the checks
block is the codec stage followed (on success) by verification. -/
theorem checksB_reach (w : World) (env : EnvVars) (u : String)
    (henv : effEnv w.config = some env)
    (hart : w.params.artifact ≠ "")
    (hdev : isDev w.devFlag w.devMarker = false)
    (hu : getAssetUrlPrefix env w.params.pfx w.params.sfx w.params.host
      w.hostEnvValue w.platform w.arch w.modules = some u) :
    checksB w =
      (if (codecStage w u).2 then
        ((codecStage w u).1 ++ (isVerifiedRun env w.verifyOutcome).1,
          (isVerifiedRun env w.verifyOutcome).2)
      else ((codecStage w u).1, false)) := by
  unfold checksB
  rw [henv]
  dsimp only
  rw [if_neg hart, if_neg (by rw [hdev]; exact Bool.false_ne_true), hu]

/-- The second component of `isVerifiedRun` is the outcome of the selected
command whenever one is configured. -/
theorem isVerifiedRun_snd (e : EnvVars) (o : ProcOutcome)
    (h : e.verifyBuild ≠ "" ∨ e.test ≠ "") :
    (isVerifiedRun e o).2 = runOk o := by
  unfold isVerifiedRun
  by_cases h1 : e.verifyBuild ≠ ""
  · rw [if_pos h1]
  · rw [if_neg h1]
    rcases h with h | h
    · exact absurd h h1
    · rw [if_pos h]

/-- C3: codec attempts are ordered brotli before gzip (the request list is
a sublist of `[u.br, u.gz]` in that order), and when the brotli attempt
downloads, decompresses and writes successfully, the gzip URL is never
requested — whatever the verification outcome. -/
theorem c3_brotli_first_success_final (w : World) (env : EnvVars) (u : String)
    (henv : effEnv w.config = some env)
    (hart : w.params.artifact ≠ "")
    (hdev : isDev w.devFlag w.devMarker = false)
    (hu : getAssetUrlPrefix env w.params.pfx w.params.sfx w.params.host
      w.hostEnvValue w.platform w.arch w.modules = some u) :
    List.Sublist (netReqs (mainTrace w)) [u ++ ".br", u ++ ".gz"] ∧
    (w.brotliSupported = true → ∀ bs, w.brFetch = Except.ok bs →
      ∀ ds, w.brDecompress = some ds → w.brWriteOk = true →
      netReqs (mainTrace w) = [u ++ ".br"]) := by
  have hreach := checksB_reach w env u henv hart hdev hu
  have hnet : netReqs (checksB w).1 = netReqs (codecStage w u).1 := by
    rw [hreach]
    by_cases hcs : (codecStage w u).2 = true
    · rw [if_pos hcs]
      dsimp only
      rw [netReqs_append, (isVerifiedRun_events env w.verifyOutcome).2.2]
      simp
    · rw [if_neg hcs]
  constructor
  · rw [netReqs_mainTrace, hnet]
    exact (codecStage_events w u).2.2
  · intro hsup bs hf ds hd hw
    rw [netReqs_mainTrace, hnet]
    exact (codecStage_brotli w u hsup bs hf ds hd hw).1

/-- Witness for C3: on the happy-path world only the brotli URL is
requested, even though this world's gzip attempt would also succeed. -/
theorem c3_witness :
    netReqs (mainTrace wOk) =
      ["https://github.com/o/r/releases/download/1.0/Plinux-x64-108S.br"] :=
  (c3_brotli_first_success_final wOk ⟨"o/r", "", "", "1.0", "node t.js", ""⟩
      "https://github.com/o/r/releases/download/1.0/Plinux-x64-108S"
      (by decide) (by decide) (by decide) (by decide)).2
    (by decide) [1] rfl [2] rfl (by decide)

/-- C4: `isVerified` selects `npm run verify-build` if configured, else
`npm test` if configured, else fails immediately without running anything;
with an artifact written and a verification command configured, exit code 0
means no fallback build and exit code 1 means exactly one fallback build. -/
theorem c4_verifier (w : World) (env : EnvVars)
    (henv : effEnv w.config = some env)
    (hsel : env.verifyBuild ≠ "" ∨ env.test ≠ "")
    (hwr : 0 < writeCount (mainTrace w)) :
    (w.verifyOutcome = .exit 0 → rebuildCount (mainTrace w) = 0) ∧
    (w.verifyOutcome = .exit 1 → rebuildCount (mainTrace w) = 1) ∧
    (∀ e : EnvVars, ∀ o : ProcOutcome, e.verifyBuild ≠ "" →
      (isVerifiedRun e o).1 = [Event.cmd "npm run verify-build"]) ∧
    (∀ e : EnvVars, ∀ o : ProcOutcome, e.verifyBuild = "" → e.test ≠ "" →
      (isVerifiedRun e o).1 = [Event.cmd "npm test"]) ∧
    (∀ e : EnvVars, ∀ o : ProcOutcome, e.verifyBuild = "" → e.test = "" →
      isVerifiedRun e o = ([], false)) := by
  have hvb : verifiedB w = runOk w.verifyOutcome := by
    unfold verifiedB
    rw [henv]
    exact isVerifiedRun_snd env w.verifyOutcome hsel
  have hwc : 0 < writeCount (checksB w).1 := by
    rw [← writeCount_mainTrace]
    exact hwr
  refine ⟨?_, ?_, ?_, ?_, ?_⟩
  · intro h0
    have hver : verifiedB w = true := by rw [hvb, h0]; rfl
    have hc : (checksB w).2 = true := (checksB_spec w).2.mpr ⟨hwc, hver⟩
    rw [rebuildCount_mainTrace, if_pos hc]
  · intro h1
    have hver : verifiedB w = false := by rw [hvb, h1]; rfl
    have hc : ¬(checksB w).2 = true := fun hh => by
      have := ((checksB_spec w).2.mp hh).2
      rw [hver] at this
      exact Bool.false_ne_true this
    rw [rebuildCount_mainTrace, if_neg hc]
  · intro e o h1
    unfold isVerifiedRun
    rw [if_pos h1]
  · intro e o h1 h2
    unfold isVerifiedRun
    rw [if_neg (fun hh => hh h1), if_pos h2]
  · intro e o h1 h2
    unfold isVerifiedRun
    rw [if_neg (fun hh => hh h1), if_neg (fun hh => hh h2)]

/-- Witness for C4: exit code 0 of the verify-build command keeps the
fallback count at zero; exit code 1 makes it exactly one. -/
theorem c4_witness :
    rebuildCount (mainTrace wOk) = 0 ∧
    rebuildCount (mainTrace {wOk with verifyOutcome := .exit 1}) = 1 :=
  ⟨(c4_verifier wOk ⟨"o/r", "", "", "1.0", "node t.js", ""⟩ (by decide)
      (Or.inl (by decide)) (by decide)).1 rfl,
   (c4_verifier {wOk with verifyOutcome := .exit 1}
      ⟨"o/r", "", "", "1.0", "node t.js", ""⟩ (by decide)
      (Or.inl (by decide)) (by decide)).2.1 rfl⟩

/-- C8: in development mode (flag or marker), the run performs no network
request at all and reaches the fallback build, which runs exactly once. -/
theorem c8_dev_skips_network (w : World)
    (h : w.devFlag = true ∨ w.devMarker = true) :
    netReqs (mainTrace w) = [] ∧ rebuildCount (mainTrace w) = 1 := by
  have hdev : isDev w.devFlag w.devMarker = true := by
    rcases h with h | h <;> simp [isDev, h]
  have hc : checksB w = ([], false) := by
    unfold checksB
    rcases hcfg : effEnv w.config with _ | env
    · rfl
    · dsimp only
      by_cases hart : w.params.artifact = ""
      · rw [if_pos hart]
      · rw [if_neg hart, if_pos hdev]
  refine ⟨?_, ?_⟩
  · rw [netReqs_mainTrace, hc]
    rfl
  · rw [rebuildCount_mainTrace, hc]
    rfl

/-- Witness for C8: with the development flag set on the otherwise
network-happy world, no request is made and the fallback runs once. -/
theorem c8_witness :
    netReqs (mainTrace {wOk with devFlag := true}) = [] ∧
    rebuildCount (mainTrace {wOk with devFlag := true}) = 1 :=
  c8_dev_skips_network {wOk with devFlag := true} (Or.inl rfl)

/-- C9: the run ends fatally exactly when the fallback build was invoked
and its command failed (non-zero exit, signal, or failure to start); when
the rebuild command succeeds, every earlier failure is recovered and the
run ends normally. -/
theorem c9_fallback_only_fatal (w : World) :
    ((∃ e, mainResult w = .fatal e) ↔
      rebuildCount (mainTrace w) = 1 ∧ runE w.rebuildOutcome ≠ .ok ()) ∧
    (runE w.rebuildOutcome = .ok () →
      mainResult w = .done ∨ mainResult w = .fallbackOk) ∧
    (runE w.rebuildOutcome ≠ .ok () ↔
      ((∃ c, c ≠ 0 ∧ w.rebuildOutcome = .exit c) ∨
       (∃ s, w.rebuildOutcome = .signal s) ∨
       (∃ m, w.rebuildOutcome = .spawnErr m))) := by
  refine ⟨?_, ?_, ?_⟩
  · rw [rebuildCount_mainTrace]
    unfold mainResult mainRun
    by_cases hcb : (checksB w).2 = true
    · rw [if_pos hcb, if_pos hcb]
      simp
    · rw [if_neg hcb, if_neg hcb]
      rcases hr : runE w.rebuildOutcome with _ | e <;> simp [hr]
  · intro hok
    unfold mainResult mainRun
    by_cases hcb : (checksB w).2 = true
    · rw [if_pos hcb]
      exact Or.inl rfl
    · rw [if_neg hcb, hok]
      exact Or.inr rfl
  · rcases w.rebuildOutcome with c | s | m
    · unfold runE
      by_cases hc : c = 0
      · subst hc
        simp
      · simp [hc]
    · simp [runE]
    · simp [runE]


/-- Witness for C9: a run whose rebuild is killed by a signal ends fatally;
the happy-path run (whose rebuild would succeed) ends normally. -/
theorem c9_witness :
    (∃ e, mainResult wBad = .fatal e) ∧
    (mainResult wOk = .done ∨ mainResult wOk = .fallbackOk) :=
  ⟨(c9_fallback_only_fatal wBad).1.mpr ⟨by decide, fun h => Except.noConfusion h⟩,
   (c9_fallback_only_fatal wOk).2.1 rfl⟩

/-- Counterexample to C2 as stated: with the version missing (the empty
string, exactly what the script stores when `package.json` has no version)
but the repository resolvable, `getAssetUrlPrefix` still returns a URL
rather than absent. -/
theorem c2_counterexample :
    getAssetUrlPrefix ⟨"o/r", "", "", "", "", ""⟩ "P" "S" "" "" "linux" "x64" "108" ≠
      none := by
  decide

/-- C2 (amended): `getAssetUrlPrefix` returns absent exactly when the
repository reference does not resolve; otherwise it returns
`{host}/{owner}/{name}/releases/download/{version}/{pfx}{platform}-{arch}-{abi}{sfx}`
with the version interpolated as-is (even when missing), and the host is
the explicit override if nonempty, else the host environment variable's
value if nonempty, else the default public host. -/
theorem c2_asset_url (e : EnvVars)
    (pfx sfx hostParam hostEnvVal platform arch modules : String) :
    (getRepo (urlCandidate e) = none →
      getAssetUrlPrefix e pfx sfx hostParam hostEnvVal platform arch modules = none) ∧
    (∀ owner name, getRepo (urlCandidate e) = some (owner, name) →
      getAssetUrlPrefix e pfx sfx hostParam hostEnvVal platform arch modules =
        some (resolveHost hostParam hostEnvVal ++ "/" ++ owner ++ "/" ++ name ++
          "/releases/download/" ++ e.version ++ "/" ++ pfx ++ platform ++ "-" ++
          arch ++ "-" ++ modules ++ sfx)) ∧
    (hostParam ≠ "" → resolveHost hostParam hostEnvVal = hostParam) ∧
    (hostParam = "" → hostEnvVal ≠ "" → resolveHost hostParam hostEnvVal = hostEnvVal) ∧
    (hostParam = "" → hostEnvVal = "" →
      resolveHost hostParam hostEnvVal = "https://github.com") := by
  refine ⟨?_, ?_, ?_, ?_, ?_⟩
  · intro h
    unfold getAssetUrlPrefix
    rw [h]
  · intro owner name h
    unfold getAssetUrlPrefix
    rw [h]
  · intro h
    unfold resolveHost
    rw [if_pos h]
  · intro h1 h2
    unfold resolveHost
    rw [if_neg (fun hh => hh h1), if_pos h2]
  · intro h1 h2
    unfold resolveHost
    rw [if_neg (fun hh => hh h1), if_neg (fun hh => hh h2)]

/-- Witness for the amended C2 at a concrete configuration with no host
override and no host environment variable. -/
theorem c2_witness :
    getAssetUrlPrefix ⟨"o/r", "", "", "1.0", "", ""⟩ "P" "S" "" "" "linux" "x64" "108" =
      some "https://github.com/o/r/releases/download/1.0/Plinux-x64-108S" :=
  ((c2_asset_url ⟨"o/r", "", "", "1.0", "", ""⟩ "P" "S" "" "" "linux" "x64" "108").2.1
      "o" "r" (by decide)).trans (by decide)

/-- C7 (code bug): with an `ldd` probe that failed to spawn (status null,
signal null, stdout null) after a failed glibc probe, `getPlatform` throws
a TypeError at `result.stdout.toString()` instead of never raising; the
surrounding behaviour the claim describes does hold: non-Linux is
unchanged, a clean glibc probe gives plain `linux`, a signalled `ldd`
probe gives plain `linux`, and musl in the stderr of a status-1 probe
gives `linux-musl`. -/
theorem c7_ldd_spawn_failure_raises :
    getPlatform "linux" gFail lddSpawnFail = .error "TypeError" ∧
    getPlatform "darwin" gFail lddSpawnFail = .ok "darwin" ∧
    getPlatform "linux" gClean lddSpawnFail = .ok "linux" ∧
    getPlatform "linux" gFail lSig = .ok "linux" ∧
    getPlatform "linux" gFail lMusl = .ok "linux-musl" :=
  ⟨rfl, rfl, rfl, rfl, rfl⟩

/-- A `matchFull` match needs a nonempty input. -/
theorem matchFull_nonempty {l : List Char} {gr : List Char × List Char}
    (h : matchFull l = some gr) : l.isEmpty = false := by
  cases l with
  | nil => exact Option.noConfusion h
  | cons c cs => rfl

/-- A `matchGh` match needs a nonempty input. -/
theorem matchGh_nonempty {l : List Char} {gr : List Char × List Char}
    (h : matchGh l = some gr) : l.isEmpty = false := by
  cases l with
  | nil => exact Option.noConfusion h
  | cons c cs => rfl

/-- C6: the four reference shapes all resolve to owner `o` and name `r`;
the empty (falsy) input resolves to absent; an input matched by none of the
three patterns resolves to absent rather than an error; and the patterns
are tried in a fixed priority order with the first match winning. -/
theorem c6_repo_resolver :
    getRepo "https://github.com/o/r" = some ("o", "r") ∧
    getRepo "git+ssh://github.com/o/r.git" = some ("o", "r") ∧
    getRepo "github:o/r" = some ("o", "r") ∧
    getRepo "o/r" = some ("o", "r") ∧
    getRepo "" = none ∧
    (∀ s : String, matchFull s.data = none → matchGh s.data = none →
      matchBare s.data = none → getRepo s = none) ∧
    (∀ s : String, ∀ gr, matchFull s.data = some gr → getRepoL s.data = some gr) ∧
    (∀ s : String, ∀ gr, matchFull s.data = none → matchGh s.data = some gr →
      getRepoL s.data = some gr) := by
  refine ⟨by decide, by decide, by decide, by decide, by decide, ?_, ?_, ?_⟩
  · intro s h1 h2 h3
    unfold getRepo getRepoL
    by_cases hs : s.data.isEmpty = true
    · rw [if_pos hs]
      rfl
    · rw [if_neg hs, h1, h2, h3]
      rfl
  · intro s gr h
    unfold getRepoL
    rw [if_neg (by rw [matchFull_nonempty h]; exact Bool.false_ne_true), h]
  · intro s gr h1 h2
    unfold getRepoL
    rw [if_neg (by rw [matchGh_nonempty h2]; exact Bool.false_ne_true), h1, h2]

/-- Witness for C6: an input with no slash matches none of the patterns and
resolves to absent. -/
theorem c6_witness : getRepo "justaname" = none :=
  c6_repo_resolver.2.2.2.2.2.1 "justaname" (by decide) (by decide) (by decide)

/-- C5: a redirect chain of any finite depth resolves to the same result as
fetching the final URL directly; a non-3xx, non-200 response fails with an
error carrying the status code; and a transport failure fails with the
transport error. -/
theorem c5_fetcher (server : Server) :
    (∀ u v n, Redir server u v n →
      ∀ k, get server (n + k + 1) u = get server (k + 1) v) ∧
    (∀ u r, server u = .resp r → isRedirect r = false → r.status ≠ 200 →
      ∀ f, get server (f + 1) u = some (.error (.status r.status u))) ∧
    (∀ u m, server u = .err m →
      ∀ f, get server (f + 1) u = some (.error (.transport m))) := by
  refine ⟨?_, ?_, ?_⟩
  · intro u v n hchain
    induction hchain with
    | zero u =>
      intro k
      rw [Nat.zero_add]
    | succ r hresp hred hloc hrest ih =>
      intro k
      rename_i u1 v1 w1 n1
      have harith : n1 + 1 + k + 1 = (n1 + k + 1) + 1 := by omega
      rw [harith]
      show (match server u1 with
        | .err m => some (Except.error (GetErr.transport m))
        | .resp r =>
          if isRedirect r then get server (n1 + k + 1) r.location
          else if r.status ≠ 200 then some (.error (.status r.status u1))
          else some (.ok r.body)) = get server (k + 1) w1
      rw [hresp]
      show (if isRedirect r = true then get server (n1 + k + 1) r.location
        else if r.status ≠ 200 then some (Except.error (GetErr.status r.status u1))
        else some (Except.ok r.body)) = get server (k + 1) w1
      rw [if_pos hred, hloc]
      exact ih k
  · intro u r hresp hred hst f
    show (match server u with
      | .err m => some (Except.error (GetErr.transport m))
      | .resp r =>
        if isRedirect r then get server f r.location
        else if r.status ≠ 200 then some (.error (.status r.status u))
        else some (.ok r.body)) = some (.error (.status r.status u))
    rw [hresp]
    show (if isRedirect r = true then get server f r.location
      else if r.status ≠ 200 then some (Except.error (GetErr.status r.status u))
      else some (Except.ok r.body)) = some (.error (.status r.status u))
    rw [if_neg (by rw [hred]; exact Bool.false_ne_true), if_pos hst]
  · intro u m herr f
    show (match server u with
      | .err m => some (Except.error (GetErr.transport m))
      | .resp r =>
        if isRedirect r then get server f r.location
        else if r.status ≠ 200 then some (.error (.status r.status u))
        else some (.ok r.body)) = some (.error (.transport m))
    rw [herr]


/-- Witness for C5: the depth-3 chain from `a` resolves exactly as fetching
`d` directly, and the 404 and transport cases produce the matching
errors. -/
theorem c5_witness :
    get servW 4 "a" = get servW 1 "d" ∧
    get servW 1 "e" = some (.error (.status 404 "e")) ∧
    get servW 1 "z" = some (.error (.transport "ECONNREFUSED")) :=
  ⟨(c5_fetcher servW).1 "a" "d" 3
      (Redir.succ ⟨301, "b", []⟩ (by decide) (by decide) rfl
        (Redir.succ ⟨302, "c", []⟩ (by decide) (by decide) rfl
          (Redir.succ ⟨307, "d", []⟩ (by decide) (by decide) rfl
            (Redir.zero "d")))) 0,
   (c5_fetcher servW).2.1 "e" ⟨404, "", []⟩ (by decide) (by decide) (by decide) 0,
   (c5_fetcher servW).2.2 "z" "ECONNREFUSED" (by decide) 0⟩

/-- `Char.ofNat` at a valid code point has that code point. -/
theorem toNat_ofNat_valid (n : Nat) (h : n.isValidChar) : (Char.ofNat n).toNat = n := by
  unfold Char.ofNat
  rw [dif_pos h]
  rfl

/-- Lowercasing maps nothing but `:` to `:`. -/
theorem lcChar_colon (c : Char) (h : lcChar c = ':') : c = ':' := by
  unfold lcChar at h
  split at h
  · exfalso
    rename_i hc
    rw [Char.le_def, Char.le_def] at hc
    have h1n : 65 ≤ c.toNat := hc.1
    have h2n : c.toNat ≤ 90 := hc.2
    have hv : (c.toNat + 32).isValidChar := Or.inl (by omega)
    have hn := congrArg Char.toNat h
    rw [toNat_ofNat_valid _ hv] at hn
    have hcolon : (':' : Char).toNat = 58 := rfl
    rw [hcolon] at hn
    omega
  · exact h

/-- Matching a literal containing `:` against a colon-free input fails. -/
theorem stripCI_colon :
    ∀ (lit s : List Char), ':' ∈ lit → (∀ x ∈ s, x ≠ ':') →
      stripCI lit s = none
  | [], _, hlit, _ => absurd hlit (by simp)
  | _ :: _, [], _, _ => rfl
  | l :: ls, c :: cs, hlit, hs => by
    unfold stripCI
    by_cases heq : lcChar c = l
    · rw [if_pos heq]
      rcases List.mem_cons.mp hlit with h | h
      · exact absurd (lcChar_colon c (heq.trans h.symm)) (hs c (by simp))
      · exact stripCI_colon ls cs h (fun x hx => hs x (by simp [hx]))
    · rw [if_neg heq]

/-- No scheme prefix matches a colon-free input. -/
theorem firstStrip_schemes_none (s : List Char) (hs : ∀ x ∈ s, x ≠ ':') :
    firstStrip schemes s = none := by
  have h1 := stripCI_colon "https://".data s (by decide) hs
  have h2 := stripCI_colon "http://".data s (by decide) hs
  have h3 := stripCI_colon "git://".data s (by decide) hs
  have h4 := stripCI_colon "git+ssh://".data s (by decide) hs
  have h5 := stripCI_colon "git+https://".data s (by decide) hs
  have h6 := stripCI_colon "git+http://".data s (by decide) hs
  simp only [schemes, firstStrip, h1, h2, h3, h4, h5, h6]

/-- The full-URL pattern never matches a colon-free input. -/
theorem matchFull_colon_none (s : List Char) (hs : ∀ x ∈ s, x ≠ ':') :
    matchFull s = none := by
  unfold matchFull
  rw [firstStrip_schemes_none s hs]

/-- The `github:` pattern never matches a colon-free input. -/
theorem matchGh_colon_none (s : List Char) (hs : ∀ x ∈ s, x ≠ ':') :
    matchGh s = none := by
  unfold matchGh
  rw [stripCI_colon "github:".data s (by decide) hs]

theorem takeWhile_middle {α : Type} (p : α → Bool) (a : List α) (x : α) (r : List α)
    (ha : ∀ c ∈ a, p c = true) (hx : p x = false) :
    (a ++ x :: r).takeWhile p = a := by
  induction a with
  | nil => simp [List.takeWhile, hx]
  | cons y ys ih =>
    have hy : p y = true := ha y (by simp)
    simp only [List.cons_append, List.takeWhile, hy, List.append_eq]
    rw [ih (fun c hc => ha c (by simp [hc]))]

theorem dropWhile_middle {α : Type} (p : α → Bool) (a : List α) (x : α) (r : List α)
    (ha : ∀ c ∈ a, p c = true) (hx : p x = false) :
    (a ++ x :: r).dropWhile p = x :: r := by
  induction a with
  | nil => simp [List.dropWhile, hx]
  | cons y ys ih =>
    have hy : p y = true := ha y (by simp)
    simp only [List.cons_append, List.dropWhile, hy, List.append_eq]
    exact ih (fun c hc => ha c (by simp [hc]))

theorem takeWhile_all {α : Type} (p : α → Bool) (l : List α)
    (h : ∀ c ∈ l, p c = true) : l.takeWhile p = l := by
  induction l with
  | nil => rfl
  | cons y ys ih =>
    have hy : p y = true := h y (by simp)
    simp only [List.takeWhile, hy]
    rw [ih (fun c hc => h c (by simp [hc]))]

/-- C10: in the bare `owner/name` shorthand, the name may itself contain
further slashes: for any `a/b/c`-shaped input with no `:` or `#` whose
first segment `a` is nonempty and slash-free, `getRepo` yields owner `a`
and name `b/c`. -/
theorem c10_bare_name_keeps_slashes (a b c : List Char) (ha : a ≠ [])
    (haf : ∀ x ∈ a, x ≠ ':' ∧ x ≠ '/')
    (hnc : ∀ x ∈ a ++ '/' :: (b ++ '/' :: c), x ≠ ':' ∧ x ≠ '#') :
    getRepo (String.mk (a ++ '/' :: (b ++ '/' :: c))) =
      some (String.mk a, String.mk (b ++ '/' :: c)) := by
  have hcol : ∀ x ∈ a ++ '/' :: (b ++ '/' :: c), x ≠ ':' :=
    fun x hx => (hnc x hx).1
  have hFull := matchFull_colon_none _ hcol
  have hGh := matchGh_colon_none _ hcol
  have hne : (a ++ '/' :: (b ++ '/' :: c)).isEmpty = false := by
    rcases a with _ | ⟨a0, as⟩
    · exact absurd rfl ha
    · rfl
  have hpa : ∀ x ∈ a, (fun ch => decide (ch ≠ ':') && decide (ch ≠ '/')) x = true := by
    intro x hx
    have := haf x hx
    simp [this.1, this.2]
  have hpx : (fun ch => decide (ch ≠ ':') && decide (ch ≠ '/')) '/' = false := by decide
  have hg2 : ∀ x ∈ b ++ '/' :: c, (fun ch => decide (ch ≠ '#')) x = true := by
    intro x hx
    have : x ∈ a ++ '/' :: (b ++ '/' :: c) := by
      apply List.mem_append_right
      exact List.mem_cons_of_mem _ hx
    simp [(hnc x this).2]
  have hbare : matchBare (a ++ '/' :: (b ++ '/' :: c)) = some (a, b ++ '/' :: c) := by
    unfold matchBare
    rw [takeWhile_middle _ a '/' _ hpa hpx, dropWhile_middle _ a '/' _ hpa hpx]
    show (if a.isEmpty = true then none
      else if ((b ++ '/' :: c).takeWhile (fun ch => decide (ch ≠ '#'))).isEmpty = true
        then none
      else some (a, (b ++ '/' :: c).takeWhile (fun ch => decide (ch ≠ '#')))) =
        some (a, b ++ '/' :: c)
    rw [takeWhile_all _ _ hg2]
    have hae : a.isEmpty = false := by
      rcases a with _ | ⟨a0, as⟩
      · exact absurd rfl ha
      · rfl
    have hbe : (b ++ '/' :: c).isEmpty = false := by
      rcases b with _ | ⟨b0, bs⟩ <;> rfl
    rw [if_neg (by rw [hae]; exact Bool.false_ne_true),
      if_neg (by rw [hbe]; exact Bool.false_ne_true)]
  unfold getRepo getRepoL
  rw [show (String.mk (a ++ '/' :: (b ++ '/' :: c))).data =
    a ++ '/' :: (b ++ '/' :: c) from rfl]
  rw [if_neg (by rw [hne]; exact Bool.false_ne_true), hFull, hGh, hbare]
  rfl

/-- Witness for C10 at the concrete input `a/b/c`. -/
theorem c10_witness : getRepo "a/b/c" = some ("a", "b/c") := by
  have h := c10_bare_name_keeps_slashes ['a'] ['b'] ['c']
    (by decide) (by decide) (by decide)
  have hs : ("a/b/c" : String) = String.mk (['a'] ++ '/' :: (['b'] ++ '/' :: ['c'])) := by
    decide
  rw [hs, h]
  decide

end InstallFromCache
